import Mathlib

/-!
Verification development for the urbs reporting and scenario-management layer.

The Python modules under src/urbs (dataset.py, report.py, CustomCon.py,
query/execute.py, util.py) are shallowly embedded below: pandas tables become
lists of rows over exact cell values, Python dicts become association lists
with Python's insertion/update semantics, in-place mutation becomes explicit
state passing, and fallible code returns an Except value.  Numeric cell
values are carried exactly (as integers) because every property at stake is
about data plumbing, not about floating-point rounding.
-/

namespace UrbsSpec

/-- Lexicographic comparison of two character lists by code point, the order
Python uses when comparing strings with the operator "less than". -/
def strLtAux : List Char → List Char → Bool
  | [], [] => false
  | [], _ :: _ => true
  | _ :: _, [] => false
  | a :: as, b :: bs =>
    if a.val < b.val then true
    else if b.val < a.val then false
    else strLtAux as bs

/-- Python string comparison a < b (code-point lexicographic). -/
def strLt (a b : String) : Bool := strLtAux a.data b.data

/-- Python dict item assignment d[k] = v: replace the value in place when the
key is present, otherwise append the pair at the end (insertion order). -/
def dictInsert {α : Type} : List (String × α) → String → α → List (String × α)
  | [], k, v => [(k, v)]
  | (k', v') :: rest, k, v =>
    if k' = k then (k, v) :: rest else (k', v') :: dictInsert rest k v

/-- Python dict lookup d[k] as an Option. -/
def dictLookup {α : Type} : List (String × α) → String → Option α
  | [], _ => none
  | (k', v) :: rest, k => if k' = k then some v else dictLookup rest k

/-- Python dict.update: insert every pair of the second dict into the first,
in order. -/
def dictUpdate {α : Type} (d new : List (String × α)) : List (String × α) :=
  new.foldl (fun acc p => dictInsert acc p.1 p.2) d

/-- A table cell: a numeric entry (carried exactly) or a text entry. -/
inductive Cell where
  | num (n : ℤ)
  | str (s : String)
deriving DecidableEq, Repr

/-- A pandas DataFrame with a single level of column labels: a list of column
names and a list of rows, each row listing the cells in column order. -/
structure Table where
  cols : List String
  rows : List (List Cell)
deriving DecidableEq, Repr

/-! ## dataset.py: the DataSet loader -/

/-- The facts about a filesystem path that DataSet.read_data inspects.
xlsxTables holds the tables carried by the spreadsheet file(s) at the path
(nonempty exactly when the glob "*.xlsx" finds a file), parquetFiles the
stem-to-table mapping of the "*.parquet" files in the directory.  The field
isFile is never inspected by read_data; it is recorded here because claim C8
speaks about it. -/
structure FPath where
  suffix : String
  isFile : Bool
  isDir : Bool
  xlsxTables : List (String × Table)
  parquetFiles : List (String × Table)

/-- Modelled from the spec: the function urbs.input.read_input called by
DataSet._read_excel is code of this repository that is not under src/.  Per
the spec the DataSet loader "reads tabular input (spreadsheet-of-sheets or
directory-of-columnar-files) into a mapping from table name to table"; the
excel branch is therefore modelled as reading the spreadsheet tables into the
mapping (DataSet._read_excel does self.update(read_input(...))). -/
def readExcelInto (self : List (String × Table)) (p : FPath) :
    List (String × Table) :=
  dictUpdate self p.xlsxTables

/-- DataSet._read_parquet (dataset.py 30-35): one dict assignment
self[filename.stem] = pd.read_parquet(filename) per parquet file. -/
def readParquetInto (self : List (String × Table)) (p : FPath) :
    List (String × Table) :=
  p.parquetFiles.foldl (fun acc f => dictInsert acc f.1 f.2) self

/-- DataSet.read_data (dataset.py 11-23).  The code first tests the path's
suffix (only the suffix: it never asks whether the path is a file), then
whether it is a directory holding spreadsheet or parquet files, and raises
FileNotFoundError otherwise; on success it returns the dataset itself
(mutation of self is modelled by returning the updated mapping). -/
def readData (self : List (String × Table)) (p : FPath) :
    Except String (List (String × Table)) :=
  if p.suffix = ".xlsx" then .ok (readExcelInto self p)
  else if p.isDir then
    if p.xlsxTables ≠ [] then .ok (readExcelInto self p)
    else if p.parquetFiles ≠ [] then .ok (readParquetInto self p)
    else .error "FileNotFoundError"
  else .error "FileNotFoundError"

/-- DataSet.to_parquet (dataset.py 68-86): writes one file per key, named by
the key with suffix ".parquet", holding that key's table.  The pyarrow
write/read pair is an external collaborator and is modelled as the identity
on tables; the result is the directory content as a stem-to-table list. -/
def toParquetFS (data : List (String × Table)) : List (String × Table) :=
  data.map (fun kv => (kv.1, kv.2))

/-- The path of a fresh directory (no pre-existing files, name without an
".xlsx" suffix) right after DataSet.to_parquet wrote data into it. -/
def parquetDir (data : List (String × Table)) : FPath :=
  { suffix := "", isFile := false, isDir := true,
    xlsxTables := [], parquetFiles := toParquetFS data }

/-- Writing a dataset with to_parquet into a fresh directory, then reading
that directory back with read_data on a fresh DataSet. -/
def roundtrip (data : List (String × Table)) :
    Except String (List (String × Table)) :=
  readData [] (parquetDir data)

/-! ## dataset.py: the Scenario composer

In-place mutation of the dataset argument by the data-update functions is
modelled by state passing: an update maps the current tables (and the keyword
arguments) to the mutated tables, and Scenario.construct returns the final
state of the very dataset object it was handed. -/

/-- The Scenario class (dataset.py 103-134).  D is the dataset type, M the
optimization-model type of the constraint injectors. -/
structure Scenario (D M : Type) where
  name : String
  doc : String
  dataUpdates : List (D → List (String × String) → D)
  constraints : List (M → M)
  kwargs : List (String × String)

/-- Scenario.__init__ (dataset.py 104-112): the positional rest arguments are
appended to the data_updates tuple, the keyword rest arguments are stored. -/
def mkScenario {D M : Type} (name doc : String)
    (dataUpdates : List (D → List (String × String) → D))
    (constraints : List (M → M))
    (args : List (D → List (String × String) → D))
    (kwargs : List (String × String)) : Scenario D M :=
  { name := name, doc := doc, dataUpdates := dataUpdates ++ args,
    constraints := constraints, kwargs := kwargs }

/-- Scenario.construct (dataset.py 114-118): first self.kwargs.update(kwargs),
then each data-update is called on the dataset object itself with the merged
keyword arguments.  Returns the final state of that dataset and the updated
scenario. -/
def Scenario.construct {D M : Type} (s : Scenario D M) (data : D)
    (kw : List (String × String)) : D × Scenario D M :=
  let kw' := dictUpdate s.kwargs kw
  (s.dataUpdates.foldl (fun d f => f d kw') data,
   { s with kwargs := kw' })

/-- Stated from the spec's words for claim C2: the update functions applied
to the dataset one after another, in the listed order, each call receiving
the keyword arguments. -/
def specApplyUpdates {D : Type} (fs : List (D → List (String × String) → D))
    (kw : List (String × String)) (data : D) : D :=
  match fs with
  | [] => data
  | f :: rest => specApplyUpdates rest kw (f data kw)

/-! ## CustomCon.py -/

/-- The function add_custom_constraints (CustomCon.py 4-25): when the
argument tuple is nonempty, each constraint injector is called on the model
in turn (mutating it in place, modelled by state passing); the function
returns the empty tuple.  The result pairs the final model state with that
returned empty tuple. -/
def addCustomConstraints {M : Type} (m : M) (fs : List (M → M)) : M × Unit :=
  (match fs with
   | [] => m
   | _ :: _ => fs.foldl (fun acc f => f acc) m,
   ())

/-- Stated from the spec's words for claim C7: the constraint injectors
applied to the model one after another, in the given order. -/
def specApplyInjectors {M : Type} (fs : List (M → M)) (m : M) : M :=
  match fs with
  | [] => m
  | f :: rest => specApplyInjectors rest (f m)

/-! ## report.py: timeseries sheet names (report, lines 200-209) -/

/-- Python string slicing s[:n]: the first n characters. -/
def pySlice (s : String) (n : Nat) : String := String.mk (s.data.take n)

/-- The sheet name built at report.py 204-206 for a per-commodity timeseries
sheet: the formatted triple with the trailing word, sliced to 31 characters
before being passed to the spreadsheet writer. -/
def mkSheetName (stf siteName com : String) : String :=
  pySlice (stf ++ "." ++ siteName ++ "." ++ com ++ " timeseries") 31

/-! ## Helper lemmas -/

theorem foldl_specApplyUpdates {D : Type} (kw : List (String × String)) :
    ∀ (fs : List (D → List (String × String) → D)) (data : D),
      fs.foldl (fun d f => f d kw) data = specApplyUpdates fs kw data
  | [], _ => rfl
  | _ :: rest, data => foldl_specApplyUpdates kw rest _

theorem foldl_specApplyInjectors {M : Type} :
    ∀ (fs : List (M → M)) (m : M),
      fs.foldl (fun acc f => f acc) m = specApplyInjectors fs m
  | [], _ => rfl
  | _ :: rest, m => foldl_specApplyInjectors rest _

theorem foldl_fixed_of_updates_fixed {D : Type} (kw : List (String × String)) :
    ∀ (fs : List (D → List (String × String) → D)) (data : D),
      (∀ f ∈ fs, ∀ d k, f d k = d) →
      fs.foldl (fun d f => f d kw) data = data
  | [], _, _ => rfl
  | f :: rest, data, h => by
      have hf : f data kw = data := h f (List.mem_cons_self f rest) data kw
      have hrest := foldl_fixed_of_updates_fixed kw rest data
        (fun g hg d k => h g (List.mem_cons_of_mem f hg) d k)
      simpa [hf] using hrest

/-! ## Claims C2, C5, C7, C10 -/

/-- C2: For every Scenario constructed with data-update functions
(f1, ..., fn) and every dataset, Scenario.construct applies f1, ..., fn to
the dataset in exactly the listed order, each call receiving the scenario's
keyword arguments. -/
theorem claim2_construct_applies_updates_in_order {D M : Type}
    (name doc : String) (fs : List (D → List (String × String) → D))
    (cons : List (M → M)) (kw : List (String × String)) (data : D) :
    ((mkScenario name doc fs cons [] kw).construct data []).1 =
      specApplyUpdates fs kw data := by
  simp only [mkScenario, Scenario.construct, dictUpdate, List.foldl_nil,
    List.append_nil]
  exact foldl_specApplyUpdates kw fs data

/-- A concrete data-update function that mutates the dataset it is given:
it adds one table under a fresh name. -/
def addTableUpdate : List (String × Table) → List (String × String) →
    List (String × Table) :=
  fun d _ => dictInsert d "added_table" (Table.mk [] [])

/-- C5 counterexample: Scenario.construct does not copy the dataset; running
a scenario holding one mutating data-update on the empty dataset leaves the
dataset object changed, so the original's tables are not unchanged. -/
theorem claim5_counterexample :
    ((⟨"s", "", [addTableUpdate], [], []⟩ :
        Scenario (List (String × Table)) Unit).construct [] []).1 ≠ [] := by
  decide

/-- C5 (amended): Scenario.construct applies the data-update functions to
the dataset object itself and makes no copy, so the original dataset's
tables are left unchanged when (and, for mutating updates, only when) every
update function leaves its dataset argument unchanged. -/
theorem claim5_construct_preserves_only_if_updates_do {D M : Type}
    (s : Scenario D M) (data : D)
    (h : ∀ f ∈ s.dataUpdates, ∀ d k, f d k = d) :
    (s.construct data []).1 = data := by
  simp only [Scenario.construct]
  exact foldl_fixed_of_updates_fixed _ s.dataUpdates data h

/-- Witness for the amended C5 at a concrete scenario and dataset. -/
theorem claim5_construct_preserves_witness :
    ((⟨"", "", [fun d _ => d], [], []⟩ : Scenario ℕ Unit).construct 7 []).1 = 7 :=
  claim5_construct_preserves_only_if_updates_do _ 7
    (by intro f hf d k; simp only [List.mem_singleton] at hf; subst hf; rfl)

/-- C7: For every model and every list of constraint-injector functions,
add_custom_constraints applies each injector to the model in the order the
injectors are given, and returns a tuple (the empty tuple). -/
theorem claim7_add_custom_constraints_in_order {M : Type} (m : M)
    (fs : List (M → M)) :
    addCustomConstraints m fs = (specApplyInjectors fs m, ()) := by
  cases fs with
  | nil => rfl
  | cons f rest =>
      simp only [addCustomConstraints]
      exact congrArg (fun x => (x, ())) (foldl_specApplyInjectors (f :: rest) m)

/-- C10: Every per-commodity timeseries sheet name that report passes to the
spreadsheet writer is truncated to at most 31 characters. -/
theorem claim10_sheet_name_at_most_31 (stf siteName com : String) :
    (mkSheetName stf siteName com).length ≤ 31 := by
  show (List.take 31
    ((stf ++ "." ++ siteName ++ "." ++ com ++ " timeseries").data)).length ≤ 31
  rw [List.length_take]
  exact inf_le_left

/-! ## Dict lemmas for the parquet round trip -/

theorem dictInsert_of_lookup_none {α : Type} :
    ∀ (acc : List (String × α)) (k : String) (v : α),
      dictLookup acc k = none → dictInsert acc k v = acc ++ [(k, v)]
  | [], _, _, _ => rfl
  | (k', v') :: rest, k, v, h => by
      by_cases hk : k' = k
      · simp [dictLookup, hk] at h
      · simp only [dictInsert, if_neg hk, List.cons_append]
        rw [dictInsert_of_lookup_none rest k v]
        simpa [dictLookup, hk] using h

theorem dictLookup_append_none {α : Type} :
    ∀ (a b : List (String × α)) (k : String),
      dictLookup a k = none → dictLookup b k = none →
      dictLookup (a ++ b) k = none
  | [], _, _, _, hb => hb
  | (k', v') :: rest, b, k, ha, hb => by
      by_cases hk : k' = k
      · simp [dictLookup, hk] at ha
      · simp only [List.cons_append, dictLookup, if_neg hk]
        exact dictLookup_append_none rest b k (by simpa [dictLookup, hk] using ha) hb

theorem foldl_dictInsert_fresh {α : Type} :
    ∀ (d acc : List (String × α)),
      (∀ p ∈ d, dictLookup acc p.1 = none) → (d.map Prod.fst).Nodup →
      d.foldl (fun a p => dictInsert a p.1 p.2) acc = acc ++ d
  | [], acc, _, _ => by simp
  | (k, v) :: rest, acc, hfresh, hnd => by
      have hk : dictLookup acc k = none := hfresh (k, v) (List.mem_cons_self _ _)
      have hstep : dictInsert acc k v = acc ++ [(k, v)] :=
        dictInsert_of_lookup_none acc k v hk
      have hnd' : (rest.map Prod.fst).Nodup := by
        simpa using hnd.of_cons
      have hknot : ∀ p ∈ rest, p.1 ≠ k := by
        intro p hp
        have : k ∉ rest.map Prod.fst := by
          simp only [List.map_cons, List.nodup_cons] at hnd
          exact hnd.1
        intro hcontra
        exact this (hcontra ▸ List.mem_map_of_mem Prod.fst hp)
      have hfresh' : ∀ p ∈ rest, dictLookup (acc ++ [(k, v)]) p.1 = none := by
        intro p hp
        refine dictLookup_append_none acc [(k, v)] p.1
          (hfresh p (List.mem_cons_of_mem _ hp)) ?_
        simp [dictLookup, Ne.symm (hknot p hp)]
      calc ((k, v) :: rest).foldl (fun a p => dictInsert a p.1 p.2) acc
          = rest.foldl (fun a p => dictInsert a p.1 p.2) (acc ++ [(k, v)]) := by
            simp [hstep]
        _ = (acc ++ [(k, v)]) ++ rest := foldl_dictInsert_fresh rest _ hfresh' hnd'
        _ = acc ++ ((k, v) :: rest) := by simp

/-! ## Claims C3 and C8 -/

/-- C3 counterexample: writing the empty dataset with to_parquet produces a
directory with no parquet files, and reading it back with read_data raises
FileNotFoundError instead of yielding the same (empty) mapping. -/
theorem claim3_counterexample :
    roundtrip [] = Except.error "FileNotFoundError" := by
  simp [roundtrip, readData, parquetDir, toParquetFS]

/-- C3 (amended): for every nonempty dataset with distinct table names,
writing it out with DataSet.to_parquet to a fresh directory and reading that
directory back with DataSet.read_data yields the same mapping from table
name to table. -/
theorem claim3_roundtrip_nonempty (d : List (String × Table)) (hne : d ≠ [])
    (hnd : (d.map Prod.fst).Nodup) : roundtrip d = Except.ok d := by
  have htp : toParquetFS d = d := by simp [toParquetFS]
  have hread : readParquetInto [] (parquetDir d) = d := by
    simp only [readParquetInto, parquetDir, htp]
    have := foldl_dictInsert_fresh d [] (by intro p _; rfl) hnd
    simpa using this
  simp only [roundtrip, readData, parquetDir]
  norm_num [htp, hne]
  simpa [parquetDir, htp] using hread

/-- Witness for the amended C3 at a concrete one-table dataset. -/
theorem claim3_roundtrip_witness :
    ([("demand", Table.mk ["Elec"] [[Cell.num 3]])] ≠
        ([] : List (String × Table))) ∧
      roundtrip [("demand", Table.mk ["Elec"] [[Cell.num 3]])] =
        Except.ok [("demand", Table.mk ["Elec"] [[Cell.num 3]])] :=
  ⟨by decide,
   claim3_roundtrip_nonempty _ (by decide) (by decide)⟩

/-- The path of a nonexistent filesystem entry whose name carries the
suffix ".xlsx": not a file, not a directory. -/
def phantomXlsxPath : FPath :=
  { suffix := ".xlsx", isFile := false, isDir := false,
    xlsxTables := [], parquetFiles := [] }

/-- C8 counterexample: at a path that is neither a file with suffix .xlsx
(it is not a file at all) nor a directory, the claim demands a
FileNotFoundError, but read_data tests only the suffix string, dispatches to
the excel reader, and returns the dataset. -/
theorem claim8_counterexample :
    (¬ (phantomXlsxPath.isFile = true ∧ phantomXlsxPath.suffix = ".xlsx")) ∧
      (¬ (phantomXlsxPath.isDir = true ∧
        (phantomXlsxPath.xlsxTables ≠ [] ∨ phantomXlsxPath.parquetFiles ≠ []))) ∧
      readData [] phantomXlsxPath = Except.ok [] := by
  refine ⟨by simp [phantomXlsxPath], by simp [phantomXlsxPath], ?_⟩
  simp [readData, phantomXlsxPath, readExcelInto, dictUpdate]

/-- C8 (amended): read_data raises FileNotFoundError if and only if the
input path's suffix is not ".xlsx" and the path is not a directory
containing at least one .xlsx file or at least one .parquet file (the
suffix test is on the name alone; whether the path is a file is never
checked); in every other case it returns the dataset itself. -/
theorem claim8_fnf_iff (self : List (String × Table)) (p : FPath) :
    readData self p = Except.error "FileNotFoundError" ↔
      (p.suffix ≠ ".xlsx" ∧
        ¬ (p.isDir = true ∧ (p.xlsxTables ≠ [] ∨ p.parquetFiles ≠ []))) := by
  unfold readData
  split_ifs with h1 h2 h3 h4 <;> simp_all

/-! ## query/execute.py: export_results -/

/-- A SQL file of the query directory: its filename is the stem followed by
the suffix ".sql", and it holds the SQL text. -/
structure SqlFile where
  stem : String
  text : String
deriving DecidableEq, Repr

/-- The result the database cursor yields for a query: the description's
column names (the header) and the fetched data rows, in order. -/
structure QueryResult where
  header : List String
  dataRows : List (List String)
deriving DecidableEq, Repr

/-- Whether pat occurs as a contiguous run inside l. -/
def hasSub (pat : List Char) : List Char → Bool
  | [] => pat.isEmpty
  | c :: rest => pat.isPrefixOf (c :: rest) || hasSub pat rest

/-- Whether the filename of f (its stem followed by ".sql") matches the glob
pattern star-pat-star-".sql".  The two patterns used, "view_" and "table_",
share no character with ".sql", so an occurrence can neither straddle the
boundary between stem and suffix nor sit inside the suffix: the filename
matches exactly when pat occurs inside the stem. -/
def matchesSqlGlob (pat : String) (f : SqlFile) : Bool :=
  hasSub pat.data f.stem.data

/-- Python str.replace(pat, empty string): remove every occurrence of pat,
scanning left to right, non-overlapping.  The recursion is made structural
with a character-count fuel; the fuel never runs out because every step
consumes at least one character. -/
def removeOccAux (pat : List Char) : Nat → List Char → List Char
  | _, [] => []
  | 0, l => l
  | fuel + 1, c :: rest =>
    if pat ≠ [] ∧ pat.isPrefixOf (c :: rest) then
      removeOccAux pat fuel ((c :: rest).drop pat.length)
    else c :: removeOccAux pat fuel rest

/-- Python str.replace(pat, empty string) on strings. -/
def pyReplace (s pat : String) : String :=
  String.mk (removeOccAux pat.data s.data.length s.data)

/-- The CSV filename export_results writes for a table-query file
(execute.py line 34): the stem with every occurrence of the text table_
removed, followed by ".csv". -/
def csvName (f : SqlFile) : String := pyReplace f.stem "table_" ++ ".csv"

/-- The first loop of export_results (execute.py 11-20): each view file's
text is executed against the connection; a failure is logged and skipped.
The connection state is threaded; the executed texts are returned in
order. -/
def runViewPass {S : Type} (exec : S → String → S × Option QueryResult) :
    S → List SqlFile → S × List String
  | s, [] => (s, [])
  | s, f :: rest =>
    let out := runViewPass exec (exec s f.text).1 rest
    (out.1, f.text :: out.2)

/-- The second loop of export_results (execute.py 21-41): each table file's
text is executed; on success the header row followed by every data row is
written to the CSV file named by csvName, and a failure is skipped. -/
def runTablePass {S : Type} (exec : S → String → S × Option QueryResult) :
    S → List SqlFile → S × List String × List (String × List (List String))
  | s, [] => (s, [], [])
  | s, f :: rest =>
    let step := exec s f.text
    let out := runTablePass exec step.1 rest
    match step.2 with
    | none => (out.1, f.text :: out.2.1, out.2.2)
    | some r =>
      (out.1, f.text :: out.2.1, (csvName f, r.header :: r.dataRows) :: out.2.2)

/-- export_results (execute.py 6-42): run every file of the directory
matching the view glob, then every file matching the table glob, and return
the final connection state, the executed texts in order, and the CSV files
written (name and content, the header row first). -/
def exportResults {S : Type} (exec : S → String → S × Option QueryResult)
    (s : S) (files : List SqlFile) :
    S × List String × List (String × List (List String)) :=
  let viewOut := runViewPass exec s (files.filter (matchesSqlGlob "view_"))
  let tableOut :=
    runTablePass exec viewOut.1 (files.filter (matchesSqlGlob "table_"))
  (tableOut.1, viewOut.2 ++ tableOut.2.1, tableOut.2.2)

/-- The execution log of a list of files against the threaded connection:
which result each file's query yields when they are run in order. -/
def execLog {S : Type} (exec : S → String → S × Option QueryResult) :
    S → List SqlFile → List (SqlFile × Option QueryResult)
  | _, [] => []
  | s, f :: rest =>
    let step := exec s f.text
    (f, step.2) :: execLog exec step.1 rest

theorem runViewPass_trace {S : Type} (exec : S → String → S × Option QueryResult) :
    ∀ (fs : List SqlFile) (s : S),
      (runViewPass exec s fs).2 = fs.map SqlFile.text
  | [], _ => rfl
  | f :: rest, s => by
      simp only [runViewPass, List.map_cons, List.cons.injEq, true_and]
      exact runViewPass_trace exec rest _

theorem runTablePass_trace {S : Type} (exec : S → String → S × Option QueryResult) :
    ∀ (fs : List SqlFile) (s : S),
      (runTablePass exec s fs).2.1 = fs.map SqlFile.text
  | [], _ => rfl
  | f :: rest, s => by
      have ih := runTablePass_trace exec rest (exec s f.text).1
      simp only [runTablePass]
      cases h : (exec s f.text).2 <;> simp_all

theorem runTablePass_csvs {S : Type} (exec : S → String → S × Option QueryResult) :
    ∀ (fs : List SqlFile) (s : S),
      (runTablePass exec s fs).2.2 =
        (execLog exec s fs).filterMap
          (fun fr => fr.2.map (fun r => (csvName fr.1, r.header :: r.dataRows)))
  | [], _ => rfl
  | f :: rest, s => by
      have ih := runTablePass_csvs exec rest (exec s f.text).1
      simp only [runTablePass, execLog, List.filterMap_cons]
      cases h : (exec s f.text).2 <;> simp_all

/-- A database stub whose every query succeeds with a fixed one-row result. -/
def constExecOk : Unit → String → Unit × Option QueryResult :=
  fun _ _ => ((), some { header := ["head"], dataRows := [["1"]] })

/-- C4 counterexample: the file named my_table_results.sql matches the table
glob, yet its CSV is written as my_results.csv -- the code removes every
occurrence of the text table_ from the stem, not the table_ prefix.  The
claimed filename my_table_results.csv (the stem has no table_ prefix to
remove) is never produced. -/
theorem claim4_counterexample :
    (exportResults constExecOk ()
        [{ stem := "my_table_results", text := "SELECT 1" }]).2.2 =
      [("my_results.csv", [["head"], ["1"]])] ∧
    "my_table_results.csv" ∉
      ((exportResults constExecOk ()
        [{ stem := "my_table_results", text := "SELECT 1" }]).2.2.map Prod.fst) := by
  decide

/-- C4 (amended): export_results executes every SQL file matching the view
glob, then every file matching the table glob, each group in directory
order, and for each successful table query writes the query's full result --
one header row followed by every data row, in order -- to a CSV file named
by the SQL file's stem with every occurrence of the text table_ removed. -/
theorem claim4_export_results {S : Type}
    (exec : S → String → S × Option QueryResult) (s : S)
    (files : List SqlFile) :
    (exportResults exec s files).2.1 =
      (files.filter (matchesSqlGlob "view_")).map SqlFile.text ++
        (files.filter (matchesSqlGlob "table_")).map SqlFile.text ∧
    (exportResults exec s files).2.2 =
      (execLog exec
          (runViewPass exec s (files.filter (matchesSqlGlob "view_"))).1
          (files.filter (matchesSqlGlob "table_"))).filterMap
        (fun fr => fr.2.map (fun r => (csvName fr.1, r.header :: r.dataRows))) := by
  constructor
  · simp only [exportResults]
    rw [runViewPass_trace, runTablePass_trace]
  · simp only [exportResults]
    rw [runTablePass_csvs]

/-! ## report.py: annual aggregation (report_all, lines 280-284 and 299-302)

A stacked timeseries frame as the solved model instance hands it to
report_all is a finite set of (time step, row key, column label) index
triples -- the MultiIndex of the frame is unique, hence a set -- together
with the value held at each index. -/

/-- The column labels of df.unstack(0): one (original label, time step) pair
for every combination present in the frame. -/
def unstackCols {κ σ : Type} [DecidableEq κ] [DecidableEq σ]
    (idx : Finset (ℕ × κ × σ)) : Finset (σ × ℕ) :=
  idx.image (fun x => (x.2.2, x.1))

/-- The cell of df.unstack(0) at row key k and column (c, t): the value when
the frame holds index (t, k, c), and 0 otherwise (pandas puts NaN there,
which the subsequent sum skips). -/
def unstackCell {κ σ : Type} [DecidableEq κ] [DecidableEq σ]
    (idx : Finset (ℕ × κ × σ)) (v : ℕ × κ × σ → ℤ) (k : κ) (ct : σ × ℕ) : ℤ :=
  ∑ x ∈ idx.filter (fun x => x.2.1 = k ∧ x.2.2 = ct.1 ∧ x.1 = ct.2), v x

/-- df.unstack(0).sum(level=0, axis=1) at row key k and original column
label c: the unstacked cells summed over every time-step column carrying
that label. -/
def sumLevelZero {κ σ : Type} [DecidableEq κ] [DecidableEq σ]
    (idx : Finset (ℕ × κ × σ)) (v : ℕ × κ × σ → ℤ) (k : κ) (c : σ) : ℤ :=
  ∑ ct ∈ (unstackCols idx).filter (fun ct => ct.1 = c), unstackCell idx v k ct

/-- The per-timestep values of the frame at row key k and column c, summed
over all time steps the frame holds. -/
def timeSum {κ σ : Type} [DecidableEq κ] [DecidableEq σ]
    (idx : Finset (ℕ × κ × σ)) (v : ℕ × κ × σ → ℤ) (k : κ) (c : σ) : ℤ :=
  ∑ x ∈ idx.filter (fun x => x.2.1 = k ∧ x.2.2 = c), v x

/-- The key of a row of the balance frame: (modelled year, site, process). -/
structure ProcKey where
  stf : ℕ
  site : String
  proc : String
deriving DecidableEq, Repr

/-- The key of a row of the annual transmission frame:
(year, site in, site out, transmission technology, commodity). -/
structure TransKey where
  stf : ℕ
  siteIn : String
  siteOut : String
  tra : String
  com : String
deriving DecidableEq, Repr

/-- The annual Generation cell of the Proc table (report_all lines 280-284):
balance.unstack(0).sum(level=0, axis=1) scaled by the instance's scalar
time-step weight.  The computation is reached only when the instance has
more than one time step (line 235). -/
def annualGeneration (numTimesteps : ℕ) (w : ℤ)
    (balIdx : Finset (ℕ × ProcKey × String)) (balVal : ℕ × ProcKey × String → ℤ)
    (k : ProcKey) (c : String) : Option ℤ :=
  if 1 < numTimesteps then some (w * sumLevelZero balIdx balVal k c) else none

/-- The annual transmitted cell of the Trans table (report_all lines
299-302): transmitted[[exported, imported]].unstack(0).sum(axis=1, level=0)
scaled by the same weight, reached only in transmission mode with more than
one time step. -/
def annualTransmitted (numTimesteps : ℕ) (modeTra : Bool) (w : ℤ)
    (traIdx : Finset (ℕ × TransKey × String))
    (traVal : ℕ × TransKey × String → ℤ)
    (k : TransKey) (c : String) : Option ℤ :=
  if 1 < numTimesteps ∧ modeTra = true
  then some (w * sumLevelZero traIdx traVal k c) else none

theorem sumLevelZero_eq_timeSum {κ σ : Type} [DecidableEq κ] [DecidableEq σ]
    (idx : Finset (ℕ × κ × σ)) (v : ℕ × κ × σ → ℤ) (k : κ) (c : σ) :
    sumLevelZero idx v k c = timeSum idx v k c := by
  unfold sumLevelZero timeSum unstackCell
  have hcongr :
      ∀ ct ∈ (unstackCols idx).filter (fun ct => ct.1 = c),
        (∑ x ∈ idx.filter (fun x => x.2.1 = k ∧ x.2.2 = ct.1 ∧ x.1 = ct.2), v x) =
          ∑ x ∈ (idx.filter (fun x => x.2.1 = k ∧ x.2.2 = c)).filter
              (fun x => (x.2.2, x.1) = ct), v x := by
    intro ct hct
    have hc : ct.1 = c := (Finset.mem_filter.mp hct).2
    refine Finset.sum_congr ?_ (fun _ _ => rfl)
    rw [Finset.filter_filter]
    refine Finset.filter_congr ?_
    intro x _
    subst hc
    constructor
    · rintro ⟨h1, h2, h3⟩
      exact ⟨⟨h1, h2⟩, by rw [h2, h3]⟩
    · rintro ⟨⟨h1, h2⟩, h3⟩
      have h4 : x.2.2 = ct.1 ∧ x.1 = ct.2 := by
        have := Prod.mk.injEq x.2.2 x.1 ct.1 ct.2 ▸ h3
        exact Prod.mk.inj h3
      exact ⟨h1, h4.1, h4.2⟩
  rw [Finset.sum_congr rfl hcongr]
  refine Finset.sum_fiberwise_of_maps_to ?_ v
  intro x hx
  have hxi := Finset.mem_filter.mp hx
  refine Finset.mem_filter.mpr ⟨?_, hxi.2.2⟩
  exact Finset.mem_image.mpr ⟨x, hxi.1, rfl⟩

/-- C6: For every solved model instance with more than one time step, the
annual Generation values in the Proc table written by report_all equal the
per-timestep balance summed over all time steps multiplied by the instance's
scalar time-step weight, and (when the transmission mode flag is enabled)
the annual transmitted values equal the time sum of the exported and
imported flows multiplied by the same weight. -/
theorem claim6_annual_values_are_weighted_time_sums
    (numTimesteps : ℕ) (hT : 1 < numTimesteps) (modeTra : Bool)
    (hM : modeTra = true) (w : ℤ)
    (balIdx : Finset (ℕ × ProcKey × String)) (balVal : ℕ × ProcKey × String → ℤ)
    (k : ProcKey) (c : String)
    (traIdx : Finset (ℕ × TransKey × String))
    (traVal : ℕ × TransKey × String → ℤ)
    (k' : TransKey) (c' : String) :
    annualGeneration numTimesteps w balIdx balVal k c =
      some (w * timeSum balIdx balVal k c) ∧
    annualTransmitted numTimesteps modeTra w traIdx traVal k' c' =
      some (w * timeSum traIdx traVal k' c') := by
  constructor
  · rw [annualGeneration, if_pos hT, sumLevelZero_eq_timeSum]
  · rw [annualTransmitted, if_pos ⟨hT, hM⟩, sumLevelZero_eq_timeSum]

/-- A two-timestep balance index for the witness. -/
def sampleBalIdx : Finset (ℕ × ProcKey × String) :=
  {(0, ⟨2020, "DE", "pp"⟩, "Elec"), (1, ⟨2020, "DE", "pp"⟩, "Elec")}

/-- The balance values for the witness. -/
def sampleBalVal : ℕ × ProcKey × String → ℤ := fun x => if x.1 = 0 then 4 else 5

/-- A two-timestep transmitted index for the witness. -/
def sampleTraIdx : Finset (ℕ × TransKey × String) :=
  {(0, ⟨2020, "DE", "FR", "hvac", "Elec"⟩, "exported"),
   (1, ⟨2020, "DE", "FR", "hvac", "Elec"⟩, "exported")}

/-- The transmitted values for the witness. -/
def sampleTraVal : ℕ × TransKey × String → ℤ := fun x => if x.1 = 0 then 7 else 2

/-- Witness for C6 at a concrete two-timestep instance. -/
theorem claim6_witness :
    (1 < 2) ∧
    annualGeneration 2 3 sampleBalIdx sampleBalVal ⟨2020, "DE", "pp"⟩ "Elec" =
      some (3 * timeSum sampleBalIdx sampleBalVal ⟨2020, "DE", "pp"⟩ "Elec") ∧
    annualTransmitted 2 true 3 sampleTraIdx sampleTraVal
        ⟨2020, "DE", "FR", "hvac", "Elec"⟩ "exported" =
      some (3 * timeSum sampleTraIdx sampleTraVal
        ⟨2020, "DE", "FR", "hvac", "Elec"⟩ "exported") :=
  ⟨by decide,
   (claim6_annual_values_are_weighted_time_sums 2 (by decide) true rfl 3
      sampleBalIdx sampleBalVal ⟨2020, "DE", "pp"⟩ "Elec"
      sampleTraIdx sampleTraVal ⟨2020, "DE", "FR", "hvac", "Elec"⟩ "exported").1,
   (claim6_annual_values_are_weighted_time_sums 2 (by decide) true rfl 3
      sampleBalIdx sampleBalVal ⟨2020, "DE", "pp"⟩ "Elec"
      sampleTraIdx sampleTraVal ⟨2020, "DE", "FR", "hvac", "Elec"⟩ "exported").2⟩

/-! ## report.py: the Scenario column on every written result table (C9) -/

/-- A pandas DataFrame with two levels of column labels, as cpro, ctra and
csto have after the concat with keys: each column label is the list of its
level parts. -/
structure Table2 where
  cols : List (List String)
  rows : List (List Cell)
deriving DecidableEq, Repr

/-- The position of a column label, scanning left to right. -/
def idxOfLabel {β : Type} [DecidableEq β] : List β → β → Option ℕ
  | [], _ => none
  | c :: rest, l => if c = l then some 0 else (idxOfLabel rest l).map (· + 1)

/-- pandas scalar column assignment df[name] = value on a frame with two
column levels: the label becomes (name, empty); an existing column with that
label is overwritten in place, otherwise the column is appended at the right
edge with the value in every row. -/
def setCol (t : Table2) (label : List String) (v : Cell) : Table2 :=
  match idxOfLabel t.cols label with
  | some i => { cols := t.cols, rows := t.rows.map (fun r => r.set i v) }
  | none => { cols := t.cols ++ [label], rows := t.rows.map (fun r => r ++ [v]) }

/-- pandas scalar column assignment on a frame with one column level. -/
def setColFlat (t : Table) (label : String) (v : Cell) : Table :=
  match idxOfLabel t.cols label with
  | some i => { cols := t.cols, rows := t.rows.map (fun r => r.set i v) }
  | none => { cols := t.cols ++ [label], rows := t.rows.map (fun r => r ++ [v]) }

/-- The join of Python str.join with a dot separator. -/
def joinDot : List String → String
  | [] => ""
  | [p] => p
  | p :: rest => p ++ "." ++ joinDot rest

/-- Python str.strip(ch): remove every leading and trailing occurrence of
the character. -/
def pyStrip (s : String) (ch : Char) : String :=
  String.mk ((((s.data.dropWhile (fun c => c = ch)).reverse).dropWhile
    (fun c => c = ch)).reverse)

/-- The column flattening of report_all (lines 289, 343, 365):
columns.map(".".join).str.strip("."). -/
def flattenCols (cols : List (List String)) : List String :=
  cols.map (fun p => pyStrip (joinDot p) '.')

/-- The final form of an annual result table right before report_all writes
it: the Scenario column is assigned the scenario name and the two column
levels are combined into one. -/
def finalizeResult (t : Table2) (sce : String) : Table :=
  let t' := setCol t ["Scenario", ""] (Cell.str sce)
  { cols := flattenCols t'.cols, rows := t'.rows }

/-- The Proc table written by report_all (lines 286-289): whatever the
upstream concat produced receives the Scenario column and flattened column
labels. -/
def procWritten (cpro : Table2) (sce : String) : Table := finalizeResult cpro sce

/-- The Trans table written by report_all: in transmission mode the
assembled ctra of lines 304-343, otherwise the literal empty frame of lines
345-360. -/
def traWritten (modeTra : Bool) (ctra : Table2) (sce : String) : Table :=
  if modeTra then finalizeResult ctra sce
  else
    { cols := ["Year", "From", "To", "Transmission", "Commodity",
        "Capacity.Total", "Capacity.New", "Forward.exported",
        "Forward.imported", "Backward.exported", "Backward.imported",
        "Scenario"],
      rows := [] }

/-- The Storage table written by report_all: in storage mode the assembled
csto of lines 362-365, otherwise the literal empty frame of lines 367-382. -/
def stoWritten (modeSto : Bool) (csto : Table2) (sce : String) : Table :=
  if modeSto then finalizeResult csto sce
  else
    { cols := ["Year", "Site", "Storage", "Commodity", "Capacity.C Total",
        "Capacity.C New", "Capacity.P Total", "Capacity.P New",
        "Stored.Level", "Stored.Storage(charging)",
        "Stored.Storage(discharging)", "Scenario"],
      rows := [] }

/-- pandas df.empty: the frame has no rows or no columns. -/
def tblEmpty (t : Table) : Bool := t.rows.isEmpty || t.cols.isEmpty

/-- The drop of index-duplicated columns (report.py 35-36): every column
whose name appears among the frame's index names is dropped. -/
def dropIdxCols (t : Table) (idxNames : List String) : Table :=
  { cols := t.cols.filter (fun c => !(idxNames.contains c)),
    rows := t.rows.map (fun r =>
      ((t.cols.zip r).filter (fun p => !(idxNames.contains p.1))).map Prod.snd) }

/-- The per-table write of input_data_report (report.py 32-39): the
index-duplicated columns are dropped (except for the supim table), the
Scenario column is assigned when the processed table is non-empty, and the
result is written under the name with the Input_ prefix. -/
def inputWritten (name : String) (t : Table) (idxNames : List String)
    (sce : String) : String × Table :=
  let t' := if name = "supim" then t else dropIdxCols t idxNames
  ("Input_" ++ name,
   if tblEmpty t' = false then setColFlat t' "Scenario" (Cell.str sce) else t')

/-- A written table carries the scenario: some column is labelled Scenario
and holds the scenario name in every row. -/
def hasScenarioCol (t : Table) (sce : String) : Prop :=
  ∃ i ∈ List.range t.cols.length,
    t.cols.getD i "" = "Scenario" ∧
      ∀ r ∈ t.rows, r.getD i (Cell.str "") = Cell.str sce

/-- Every row of the frame has one cell per column. -/
def Wf2 (t : Table2) : Prop := ∀ r ∈ t.rows, r.length = t.cols.length

/-- Every row of the frame has one cell per column. -/
def WfT (t : Table) : Prop := ∀ r ∈ t.rows, r.length = t.cols.length

theorem getD_map_of_lt {α β : Type} (f : α → β) :
    ∀ (l : List α) (i : ℕ), i < l.length → ∀ (d : α) (d' : β),
      (l.map f).getD i d' = f (l.getD i d)
  | [], i, h, _, _ => absurd h (by simp)
  | _ :: _, 0, _, _, _ => rfl
  | _ :: rest, i + 1, h, d, d' =>
      getD_map_of_lt f rest i (by simpa using h) d d'

theorem getD_set_self {α : Type} (v : α) :
    ∀ (l : List α) (i : ℕ), i < l.length → ∀ d, (l.set i v).getD i d = v
  | [], i, h, _ => absurd h (by simp)
  | _ :: _, 0, _, _ => rfl
  | _ :: rest, i + 1, h, d => getD_set_self v rest i (by simpa using h) d

theorem getD_append_len {α : Type} (v d : α) :
    ∀ l : List α, (l ++ [v]).getD l.length d = v
  | [] => rfl
  | _ :: rest => getD_append_len v d rest

theorem idxOfLabel_lt_and_get {β : Type} [DecidableEq β] (d : β) :
    ∀ (l : List β) (x : β) (i : ℕ), idxOfLabel l x = some i →
      i < l.length ∧ l.getD i d = x
  | [], _, _, h => by simp [idxOfLabel] at h
  | c :: rest, x, i, h => by
      by_cases hc : c = x
      · simp only [idxOfLabel, if_pos hc, Option.some.injEq] at h
        subst h
        exact ⟨by simp, hc⟩
      · simp only [idxOfLabel, if_neg hc, Option.map_eq_some'] at h
        obtain ⟨j, hj, rfl⟩ := h
        obtain ⟨hlt, hget⟩ := idxOfLabel_lt_and_get d rest x j hj
        exact ⟨by simpa using hlt, hget⟩

theorem scenarioLabelFlat : pyStrip (joinDot ["Scenario", ""]) '.' = "Scenario" := by
  decide

/-- Assigning the Scenario column and flattening the column labels leaves a
column labelled Scenario holding the scenario name in every row. -/
theorem hasScenario_finalizeResult (t : Table2) (sce : String) (hwf : Wf2 t) :
    hasScenarioCol (finalizeResult t sce) sce := by
  unfold finalizeResult setCol hasScenarioCol
  cases h : idxOfLabel t.cols ["Scenario", ""] with
  | some i =>
      obtain ⟨hlt, hget⟩ := idxOfLabel_lt_and_get [] t.cols _ i h
      refine ⟨i, ?_, ?_, ?_⟩
      · simpa [flattenCols, List.mem_range] using hlt
      · show (flattenCols t.cols).getD i "" = "Scenario"
        unfold flattenCols
        rw [getD_map_of_lt _ t.cols i hlt [], hget]
        exact scenarioLabelFlat
      · intro r hr
        simp only [List.mem_map] at hr
        obtain ⟨r₀, hr₀, rfl⟩ := hr
        exact getD_set_self _ r₀ i (by rw [hwf r₀ hr₀]; exact hlt) _
  | none =>
      refine ⟨t.cols.length, ?_, ?_, ?_⟩
      · simp [flattenCols, List.mem_range]
      · show (flattenCols (t.cols ++ [["Scenario", ""]])).getD t.cols.length "" =
          "Scenario"
        unfold flattenCols
        rw [List.map_append]
        have hlen : (t.cols.map (fun p => pyStrip (joinDot p) '.')).length =
            t.cols.length := List.length_map _ _
        rw [← hlen, List.map_singleton, getD_append_len]
        exact scenarioLabelFlat
      · intro r hr
        simp only [List.mem_map] at hr
        obtain ⟨r₀, hr₀, rfl⟩ := hr
        rw [← hwf r₀ hr₀]
        exact getD_append_len _ _ r₀

/-- Assigning the Scenario column on a flat-labelled frame leaves a column
labelled Scenario holding the scenario name in every row. -/
theorem hasScenario_setColFlat (t : Table) (sce : String) (hwf : WfT t) :
    hasScenarioCol (setColFlat t "Scenario" (Cell.str sce)) sce := by
  unfold setColFlat hasScenarioCol
  cases h : idxOfLabel t.cols "Scenario" with
  | some i =>
      obtain ⟨hlt, hget⟩ := idxOfLabel_lt_and_get "" t.cols _ i h
      refine ⟨i, by simpa [List.mem_range] using hlt, hget, ?_⟩
      intro r hr
      simp only [List.mem_map] at hr
      obtain ⟨r₀, hr₀, rfl⟩ := hr
      exact getD_set_self _ r₀ i (by rw [hwf r₀ hr₀]; exact hlt) _
  | none =>
      refine ⟨t.cols.length, by simp [List.mem_range], getD_append_len _ _ _, ?_⟩
      intro r hr
      simp only [List.mem_map] at hr
      obtain ⟨r₀, hr₀, rfl⟩ := hr
      rw [← hwf r₀ hr₀]
      exact getD_append_len _ _ r₀

theorem length_zip_filter_map (p : String → Bool) :
    ∀ (cols : List String) (r : List Cell), r.length = cols.length →
      (((cols.zip r).filter (fun q => p q.1)).map Prod.snd).length =
        (cols.filter p).length
  | [], [], _ => rfl
  | [], _ :: _, h => by simp at h
  | _ :: _, [], h => by simp at h
  | c :: cols, x :: r, h => by
      have h' : r.length = cols.length := by simpa using h
      by_cases hp : p c <;>
        simp [List.zip_cons_cons, List.filter_cons, hp,
          length_zip_filter_map p cols r h']

theorem wfT_dropIdxCols (t : Table) (idxNames : List String) (hwf : WfT t) :
    WfT (dropIdxCols t idxNames) := by
  intro r hr
  simp only [dropIdxCols, List.mem_map] at hr
  obtain ⟨r₀, hr₀, rfl⟩ := hr
  simpa [dropIdxCols] using
    length_zip_filter_map (fun c => !idxNames.contains c) t.cols r₀ (hwf r₀ hr₀)

/-- C9: Every table written to the result database carries its scenario:
report_all adds a Scenario column equal to the scenario-name argument to the
Proc, Trans, and Storage result tables before writing, and
input_data_report adds the same column to every non-empty input table
before writing it. -/
theorem claim9_scenario_column (cpro ctra csto : Table2) (modeTra modeSto : Bool)
    (sce : String) (hp : Wf2 cpro) (ht : Wf2 ctra) (hs : Wf2 csto)
    (name : String) (t : Table) (idxNames : List String) (hwf : WfT t)
    (hne : tblEmpty (if name = "supim" then t else dropIdxCols t idxNames) = false) :
    hasScenarioCol (procWritten cpro sce) sce ∧
    hasScenarioCol (traWritten modeTra ctra sce) sce ∧
    hasScenarioCol (stoWritten modeSto csto sce) sce ∧
    hasScenarioCol (inputWritten name t idxNames sce).2 sce := by
  refine ⟨hasScenario_finalizeResult cpro sce hp, ?_, ?_, ?_⟩
  · unfold traWritten
    cases modeTra with
    | true => simpa using hasScenario_finalizeResult ctra sce ht
    | false =>
        refine ⟨11, by simp [List.mem_range], by simp, by simp⟩
  · unfold stoWritten
    cases modeSto with
    | true => simpa using hasScenario_finalizeResult csto sce hs
    | false =>
        refine ⟨11, by simp [List.mem_range], by simp, by simp⟩
  · unfold inputWritten
    simp only [hne, Bool.false_eq_true, reduceIte]
    by_cases hn : name = "supim"
    · simp only [if_pos hn]
      simp only [if_pos hn] at hne
      exact hasScenario_setColFlat t sce hwf
    · simp only [if_neg hn]
      simp only [if_neg hn] at hne
      exact hasScenario_setColFlat _ sce (wfT_dropIdxCols t idxNames hwf)

/-- Witness for C9 at concrete tables: a one-row Proc frame, transmission
mode off, storage mode on with a rowless frame, and a one-row demand input
table indexed by t. -/
theorem claim9_witness :
    Wf2 (Table2.mk [["Capacity", "Total"]] [[Cell.num 1]]) ∧
    WfT (Table.mk ["t", "DE.Elec"] [[Cell.num 0, Cell.num 7]]) ∧
    tblEmpty (if "demand" = "supim"
        then Table.mk ["t", "DE.Elec"] [[Cell.num 0, Cell.num 7]]
        else dropIdxCols (Table.mk ["t", "DE.Elec"] [[Cell.num 0, Cell.num 7]])
          ["t"]) = false ∧
    (hasScenarioCol
        (procWritten (Table2.mk [["Capacity", "Total"]] [[Cell.num 1]]) "base")
        "base" ∧
      hasScenarioCol
        (traWritten false (Table2.mk [["Capacity", "Total"]] []) "base") "base" ∧
      hasScenarioCol
        (stoWritten true (Table2.mk [["Capacity", "C Total"]] []) "base") "base" ∧
      hasScenarioCol
        (inputWritten "demand" (Table.mk ["t", "DE.Elec"]
          [[Cell.num 0, Cell.num 7]]) ["t"] "base").2 "base") :=
  have hp : Wf2 (Table2.mk [["Capacity", "Total"]] [[Cell.num 1]]) := by
    intro r hr
    simp only [List.mem_singleton] at hr
    subst hr
    rfl
  have hvac : Wf2 (Table2.mk [["Capacity", "Total"]] []) := by
    intro r hr
    exact absurd hr (List.not_mem_nil r)
  have hvac' : Wf2 (Table2.mk [["Capacity", "C Total"]] []) := by
    intro r hr
    exact absurd hr (List.not_mem_nil r)
  have hwf : WfT (Table.mk ["t", "DE.Elec"] [[Cell.num 0, Cell.num 7]]) := by
    intro r hr
    simp only [List.mem_singleton] at hr
    subst hr
    rfl
  have hne : tblEmpty (if "demand" = "supim"
      then Table.mk ["t", "DE.Elec"] [[Cell.num 0, Cell.num 7]]
      else dropIdxCols (Table.mk ["t", "DE.Elec"] [[Cell.num 0, Cell.num 7]])
        ["t"]) = false := by decide
  ⟨hp, hwf, hne,
    claim9_scenario_column (Table2.mk [["Capacity", "Total"]] [[Cell.num 1]])
      (Table2.mk [["Capacity", "Total"]] []) (Table2.mk [["Capacity", "C Total"]] [])
      false true "base" hp hvac hvac' "demand"
      (Table.mk ["t", "DE.Elec"] [[Cell.num 0, Cell.num 7]]) ["t"] hwf hne⟩

/-! ## report.py: joining the two directions of a transmission line (C1) -/

/-- A row of the annual transmission frame right after reset_index
(report_all line 307): the five key columns (modelled year, Site In, Site
Out, Transmission, Commodity) followed by the Capacity block of ctra and
the annual Transmitted block (exported, imported after loss). -/
structure TRow where
  stf : ℕ
  siteIn : String
  siteOut : String
  tra : String
  com : String
  capTotal : ℤ
  capNew : ℤ
  exported : ℤ
  imported : ℤ
deriving DecidableEq, Repr

/-- The five merge-key columns of a transmission row. -/
def TRow.key (r : TRow) : TransKey :=
  { stf := r.stf, siteIn := r.siteIn, siteOut := r.siteOut,
    tra := r.tra, com := r.com }

/-- The column renaming of report_all lines 318-322: Site In and Site Out
are exchanged on the backward rows before the merge. -/
def swapSites (r : TRow) : TRow :=
  { r with siteIn := r.siteOut, siteOut := r.siteIn }

/-- The key with its two site components exchanged. -/
def swapKey (k : TransKey) : TransKey :=
  { stf := k.stf, siteIn := k.siteOut, siteOut := k.siteIn,
    tra := k.tra, com := k.com }

/-- A row of the merged Trans table (report_all lines 312-339): the key
(Site In renamed From, Site Out renamed To), the Capacity block of the
forward row (the backward copy Capacity_ is dropped at line 338), the
Forward throughput block and the Backward throughput block. -/
structure JRow where
  stf : ℕ
  siteFrom : String
  siteTo : String
  tra : String
  com : String
  capTotal : ℤ
  capNew : ℤ
  fwdExported : ℤ
  fwdImported : ℤ
  bwdExported : ℤ
  bwdImported : ℤ
deriving DecidableEq, Repr

/-- The index columns of a merged row. -/
def JRow.key (j : JRow) : TransKey :=
  { stf := j.stf, siteIn := j.siteFrom, siteOut := j.siteTo,
    tra := j.tra, com := j.com }

/-- One merged row: the forward row l combined with the site-swapped
backward row r that agrees with it on the key. -/
def mkJRow (l r : TRow) : JRow :=
  { stf := l.stf, siteFrom := l.siteIn, siteTo := l.siteOut, tra := l.tra,
    com := l.com, capTotal := l.capTotal, capNew := l.capNew,
    fwdExported := l.exported, fwdImported := l.imported,
    bwdExported := r.exported, bwdImported := r.imported }

/-- The lexicographic order on the five merge-key columns by which pandas
sorts the merged frame (sort=True at line 331). -/
def keyLeB (a b : TransKey) : Bool :=
  if a.stf ≠ b.stf then decide (a.stf < b.stf)
  else if a.siteIn ≠ b.siteIn then strLt a.siteIn b.siteIn
  else if a.siteOut ≠ b.siteOut then strLt a.siteOut b.siteOut
  else if a.tra ≠ b.tra then strLt a.tra b.tra
  else strLt a.com b.com || decide (a.com = b.com)

/-- The left side of the merge (line 314): the rows whose Site In sorts
before their Site Out, the forward direction of each line. -/
def transLeft (rows : List TRow) : List TRow :=
  rows.filter (fun r => strLt r.siteIn r.siteOut)

/-- The right side of the merge (lines 317-323): the rows whose Site In
sorted after their Site Out, with the two site columns exchanged. -/
def transRight (rows : List TRow) : List TRow :=
  (rows.filter (fun r => strLt r.siteOut r.siteIn)).map swapSites

/-- The inner merge on the five key columns: pandas expands key matches
pairwise in left-row-major order. -/
def transMerged (rows : List TRow) : List JRow :=
  (transLeft rows).flatMap (fun l =>
    ((transRight rows).filter (fun r => r.key == l.key)).map
      (fun r => mkJRow l r))

/-- The two-direction merge of report_all lines 312-339: the forward rows
inner-merged with the site-swapped backward rows on the five key columns
and, with sort=True, sorted by those columns. -/
def transJoin (rows : List TRow) : List JRow :=
  List.insertionSort (fun a b => keyLeB a.key b.key = true) (transMerged rows)

theorem swapKey_involutive : Function.Involutive swapKey := by
  intro k
  cases k
  rfl

theorem countP_transMerged (K : TransKey) (rows : List TRow) :
    (transMerged rows).countP (fun j => j.key == K) =
      (transLeft rows).countP (fun l => l.key == K) *
        (transRight rows).countP (fun r => r.key == K) := by
  unfold transMerged
  generalize transRight rows = right
  generalize transLeft rows = left
  induction left with
  | nil => simp
  | cons l rest ih =>
      rw [List.flatMap_cons, List.countP_append, ih]
      by_cases hK : l.key = K
      · have h1 : ((fun j : JRow => j.key == K) ∘ fun r : TRow => mkJRow l r) =
            fun _ : TRow => true := by
          funext r
          show ((mkJRow l r).key == K) = true
          rw [show (mkJRow l r).key = l.key from rfl, hK]
          simp
        rw [List.countP_map, h1, List.countP_true, ← List.countP_eq_length_filter,
          show (fun r : TRow => r.key == l.key) = fun r : TRow => r.key == K by
            rw [hK],
          List.countP_cons_of_pos (fun x : TRow => x.key == K) rest
            (by simp [hK])]
        ring
      · have h1 : ((fun j : JRow => j.key == K) ∘ fun r : TRow => mkJRow l r) =
            fun _ : TRow => false := by
          funext r
          show ((mkJRow l r).key == K) = false
          rw [show (mkJRow l r).key = l.key from rfl]
          simp [hK]
        rw [List.countP_map, h1,
          List.countP_cons_of_neg (fun x : TRow => x.key == K) rest
            (by simp [hK])]
        simp

theorem countP_key_eq_one_of_nodup (xs : List TRow) (x : TRow) (K : TransKey)
    (hmem : x ∈ xs) (hkey : x.key = K) (hnd : (xs.map TRow.key).Nodup) :
    xs.countP (fun r => r.key == K) = 1 := by
  have h1 : List.countP (fun r : TRow => r.key == K) xs =
      List.countP (fun k => k == K) (xs.map TRow.key) := by
    rw [List.countP_map]
    rfl
  rw [h1, ← List.count_eq_countP]
  exact List.count_eq_one_of_mem hnd (hkey ▸ List.mem_map_of_mem TRow.key hmem)

theorem nodup_transLeft_keys (rows : List TRow)
    (hnd : (rows.map TRow.key).Nodup) :
    ((transLeft rows).map TRow.key).Nodup :=
  ((List.filter_sublist rows).map TRow.key).nodup hnd

theorem nodup_transRight_keys (rows : List TRow)
    (hnd : (rows.map TRow.key).Nodup) :
    ((transRight rows).map TRow.key).Nodup := by
  unfold transRight
  rw [List.map_map,
    show (TRow.key ∘ swapSites) = (swapKey ∘ TRow.key) from rfl,
    ← List.map_map]
  exact (((List.filter_sublist rows).map TRow.key).nodup hnd).map
    swapKey_involutive.injective

/-- C1: For every solved model instance with the transmission mode flag
enabled, report_all joins the two directions of each transmission line into
a single output row: for every ordered pair of sites A, B with A sorting
before B (and each year, transmission technology, and commodity) such that
the annual transmission table contains both a row for direction A to B and
a row for direction B to A, the resulting Trans table contains exactly one
row indexed by (year, A, B, technology, commodity), whose Forward columns
hold the A-to-B throughput and whose Backward columns hold the B-to-A
throughput. -/
theorem claim1_trans_join_directions (rows : List TRow)
    (hnd : (rows.map TRow.key).Nodup)
    (y : ℕ) (A B t c : String) (hAB : strLt A B = true)
    (f b : TRow) (hf : f ∈ rows) (hb : b ∈ rows)
    (hfk : TRow.key f = ⟨y, A, B, t, c⟩) (hbk : TRow.key b = ⟨y, B, A, t, c⟩) :
    (transJoin rows).countP (fun j => j.key == (⟨y, A, B, t, c⟩ : TransKey)) = 1 ∧
    ∀ j ∈ transJoin rows, JRow.key j = (⟨y, A, B, t, c⟩ : TransKey) →
      j.fwdExported = f.exported ∧ j.fwdImported = f.imported ∧
        j.bwdExported = b.exported ∧ j.bwdImported = b.imported := by
  have hfin : f.siteIn = A := by
    rw [show f.siteIn = (TRow.key f).siteIn from rfl, hfk]
  have hfout : f.siteOut = B := by
    rw [show f.siteOut = (TRow.key f).siteOut from rfl, hfk]
  have hbin : b.siteIn = B := by
    rw [show b.siteIn = (TRow.key b).siteIn from rfl, hbk]
  have hbout : b.siteOut = A := by
    rw [show b.siteOut = (TRow.key b).siteOut from rfl, hbk]
  have hfleft : f ∈ transLeft rows :=
    List.mem_filter.mpr ⟨hf, by rw [hfin, hfout]; exact hAB⟩
  have hbright : swapSites b ∈ transRight rows :=
    List.mem_map_of_mem swapSites
      (List.mem_filter.mpr ⟨hb, by rw [hbin, hbout]; exact hAB⟩)
  have hswapkey : TRow.key (swapSites b) = (⟨y, A, B, t, c⟩ : TransKey) := by
    rw [show TRow.key (swapSites b) = swapKey (TRow.key b) from rfl, hbk]
    rfl
  have hperm := List.perm_insertionSort
    (fun a b : JRow => keyLeB a.key b.key = true) (transMerged rows)
  constructor
  · rw [show transJoin rows =
        List.insertionSort (fun a b : JRow => keyLeB a.key b.key = true)
          (transMerged rows) from rfl,
      hperm.countP_eq, countP_transMerged,
      countP_key_eq_one_of_nodup (transLeft rows) f _ hfleft hfk
        (nodup_transLeft_keys rows hnd),
      countP_key_eq_one_of_nodup (transRight rows) (swapSites b) _ hbright
        hswapkey (nodup_transRight_keys rows hnd)]
  · intro j hj hjkey
    rw [show transJoin rows =
        List.insertionSort (fun a b : JRow => keyLeB a.key b.key = true)
          (transMerged rows) from rfl,
      hperm.mem_iff] at hj
    rw [transMerged, List.mem_flatMap] at hj
    obtain ⟨l, hl, hj2⟩ := hj
    rw [List.mem_map] at hj2
    obtain ⟨r, hr, rfl⟩ := hj2
    have hlkey : TRow.key l = (⟨y, A, B, t, c⟩ : TransKey) := by
      rw [show TRow.key l = (mkJRow l r).key from rfl]
      exact hjkey
    have hlf : l = f :=
      List.inj_on_of_nodup_map hnd
        (List.mem_of_mem_filter hl) hf (by rw [hlkey, hfk])
    have hrright : r ∈ transRight rows := List.mem_of_mem_filter hr
    have hrkey : TRow.key r = (⟨y, A, B, t, c⟩ : TransKey) := by
      have := (List.mem_filter.mp hr).2
      rw [beq_iff_eq] at this
      rw [this, hlkey]
    rw [transRight, List.mem_map] at hrright
    obtain ⟨b', hb', rfl⟩ := hrright
    have hb'key : TRow.key b' = (⟨y, B, A, t, c⟩ : TransKey) := by
      have h1 : swapKey (TRow.key b') = (⟨y, A, B, t, c⟩ : TransKey) := by
        rw [← hrkey]
        rfl
      have h2 := congrArg swapKey h1
      rw [swapKey_involutive (TRow.key b')] at h2
      rw [h2]
      rfl
    have hb'b : b' = b :=
      List.inj_on_of_nodup_map hnd
        (List.mem_of_mem_filter hb') hb (by rw [hb'key, hbk])
    subst hlf
    subst hb'b
    exact ⟨rfl, rfl, rfl, rfl⟩

/-- The forward-direction sample row for the C1 witness. -/
def rowAB : TRow :=
  { stf := 2020, siteIn := "a", siteOut := "b", tra := "hvac", com := "Elec",
    capTotal := 10, capNew := 2, exported := 7, imported := 6 }

/-- The backward-direction sample row for the C1 witness. -/
def rowBA : TRow :=
  { stf := 2020, siteIn := "b", siteOut := "a", tra := "hvac", com := "Elec",
    capTotal := 10, capNew := 2, exported := 5, imported := 4 }

/-- Witness for C1 on a concrete two-row transmission table holding the two
directions of one line. -/
theorem claim1_witness :
    (([rowAB, rowBA].map TRow.key).Nodup ∧ strLt "a" "b" = true) ∧
    (transJoin [rowAB, rowBA]).countP
        (fun j => j.key == (⟨2020, "a", "b", "hvac", "Elec"⟩ : TransKey)) = 1 ∧
    ∀ j ∈ transJoin [rowAB, rowBA],
      JRow.key j = (⟨2020, "a", "b", "hvac", "Elec"⟩ : TransKey) →
        j.fwdExported = rowAB.exported ∧ j.fwdImported = rowAB.imported ∧
          j.bwdExported = rowBA.exported ∧ j.bwdImported = rowBA.imported :=
  ⟨⟨by decide, by decide⟩,
   claim1_trans_join_directions [rowAB, rowBA] (by decide) 2020 "a" "b"
     "hvac" "Elec" (by decide) rowAB rowBA (by decide) (by decide)
     (by decide) (by decide)⟩

end UrbsSpec
